import Mathlib

/-!
Shallow embedding of sslh's `probe.c` (protocol probing core).

Byte buffers are modelled as `List Nat` (each entry a byte value); a probe
receives the buffer together with the C `len` argument, mirroring the
`(const char *p, int len, struct sslhcfg_protocols_item*)` signature.
The C constants are `PROBE_NEXT = 0`, `PROBE_MATCH = 1`, `PROBE_AGAIN = 2`;
probes written as C booleans (`return !strncmp(...)`) therefore yield
`MATCH` on `1` and `NEXT` on `0`, which `boolToProbe` captures.
-/

inductive PROBE where
  | NEXT
  | MATCH
  | AGAIN
deriving DecidableEq

/-- Result enum of `parse_tls_header` (defined in tls.c, outside probe.c). -/
inductive TlsParseResult where
  | TLS_MATCH
  | TLS_NOMATCH
  | TLS_ELENGTH
deriving DecidableEq

/-- Opaque per-probe configuration (`proto->data`).

Modelled from the spec: the TLS header parser (`parse_tls_header`, spec 4.B)
and the regex engine (`regexec` with `REG_STARTEND`, spec 4.A) are external
to probe.c.  The spec requires both to decide from the bytes in `[0, len)`
only, so the configuration data carries their behaviour as a function of
exactly that slice. -/
inductive ProtoData where
  | nodata
  | tls (parseHeader : List Nat → TlsParseResult)
  | regex (patterns : List (List Nat → Bool))

/-- C probes return ints where 1 = PROBE_MATCH and 0 = PROBE_NEXT. -/
def boolToProbe (b : Bool) : PROBE := if b then PROBE.MATCH else PROBE.NEXT

/-- bytes of "SSH-" -/
def sshMagic : List Nat := [83, 83, 72, 45]

/-- `is_ssh_protocol`: AGAIN below 4 bytes, else match on the "SSH-" banner. -/
def is_ssh_protocol (p : List Nat) (len : Nat) (_ : ProtoData) : PROBE :=
  if len < 4 then PROBE.AGAIN
  else boolToProbe (p.take 4 == sshMagic)

/-- `is_openvpn_protocol`: `packet_len = ntohs(*(uint16_t*)p)`, i.e. the first
two bytes big-endian; match iff it equals `len - 2`. -/
def is_openvpn_protocol (p : List Nat) (len : Nat) (_ : ProtoData) : PROBE :=
  if len < 2 then PROBE.AGAIN
  else boolToProbe (p.getD 0 0 % 256 * 256 + p.getD 1 0 % 256 == len - 2)

/-- bytes of "0 " -/
def tincMagic : List Nat := [48, 32]

/-- `is_tinc_protocol` -/
def is_tinc_protocol (p : List Nat) (len : Nat) (_ : ProtoData) : PROBE :=
  if len < 2 then PROBE.AGAIN
  else boolToProbe (p.take 2 == tincMagic)

/-- `memmem(hay, hay_len, needle, needle_len)`: does `needle` occur as a
contiguous substring of `hay`?  The caller passes the first `len` bytes. -/
def hasSub (hay needle : List Nat) : Bool :=
  (List.range (hay.length + 1)).any fun i => needle.isPrefixOf (hay.drop i)

/-- bytes of "jabber" -/
def jabberBytes : List Nat := [106, 97, 98, 98, 101, 114]

/-- `is_xmpp_protocol` -/
def is_xmpp_protocol (p : List Nat) (len : Nat) (_ : ProtoData) : PROBE :=
  if hasSub (p.take len) jabberBytes then PROBE.MATCH
  else if len < 50 then PROBE.AGAIN
  else PROBE.NEXT

/-- `probe_http_method`: AGAIN if the buffer is shorter than the method name,
else match iff the buffer starts with it (`strncmp(p, opt, strlen(opt))`). -/
def probe_http_method (p : List Nat) (len : Nat) (opt : List Nat) : PROBE :=
  if len < opt.length then PROBE.AGAIN
  else boolToProbe (p.take opt.length == opt)

/-- bytes of "HTTP" -/
def httpBytes : List Nat := [72, 84, 84, 80]

/-- the RFC2616 methods probed by `is_http_protocol`, in source order:
OPTIONS, GET, HEAD, POST, PUT, DELETE, TRACE, CONNECT -/
def http_methods : List (List Nat) :=
  [[79, 80, 84, 73, 79, 78, 83],
   [71, 69, 84],
   [72, 69, 65, 68],
   [80, 79, 83, 84],
   [80, 85, 84],
   [68, 69, 76, 69, 84, 69],
   [84, 82, 65, 67, 69],
   [67, 79, 78, 78, 69, 67, 84]]

/-- the chain of `PROBE_HTTP_METHOD(opt)` macro expansions: return the first
result that is not PROBE_NEXT. -/
def probe_http_loop (p : List Nat) (len : Nat) : List (List Nat) → PROBE
  | [] => PROBE.NEXT
  | m :: ms =>
    match probe_http_method p len m with
    | PROBE.NEXT => probe_http_loop p len ms
    | r => r

/-- `is_http_protocol` -/
def is_http_protocol (p : List Nat) (len : Nat) (_ : ProtoData) : PROBE :=
  if hasSub (p.take len) httpBytes then PROBE.MATCH
  else probe_http_loop p len http_methods

/-- Modelled from the spec: `parse_tls_header(proto->data, p, len)` lives in
tls.c, outside probe.c; it must not read past `len` bytes, so the TLS
configuration data carries its result as a function of `p.take len`. -/
def parse_tls_header (d : ProtoData) (slice : List Nat) : TlsParseResult :=
  match d with
  | ProtoData.tls f => f slice
  | _ => TlsParseResult.TLS_NOMATCH

/-- `is_tls_protocol`: translate the parser's three-valued result.  The C
switch has a `default: return PROBE_NEXT` arm that is unreachable for the
three-valued enum. -/
def is_tls_protocol (p : List Nat) (len : Nat) (d : ProtoData) : PROBE :=
  match parse_tls_header d (p.take len) with
  | TlsParseResult.TLS_MATCH => PROBE.MATCH
  | TlsParseResult.TLS_NOMATCH => PROBE.NEXT
  | TlsParseResult.TLS_ELENGTH => PROBE.AGAIN

/-- bytes of "CNXN" -/
def cnxnBytes : List Nat := [67, 78, 88, 78]

/-- bytes of "host:" -/
def hostBytes : List Nat := [104, 111, 115, 116, 58]

/-- `probe_adb_cnxn_message`: `!memcmp(&p[0], "CNXN", 4) && !memcmp(&p[24], "host:", 5)` -/
def probe_adb_cnxn_message (p : List Nat) : Bool :=
  p.take 4 == cnxnBytes && (p.drop 24).take 5 == hostBytes

/-- the `empty_message` constant of `is_adb_protocol`: 20 zero bytes then four 0xFF -/
def empty_message : List Nat :=
  [0, 0, 0, 0, 0, 0, 0, 0,
   0, 0, 0, 0, 0, 0, 0, 0,
   0, 0, 0, 0, 255, 255, 255, 255]

/-- `is_adb_protocol` (min_data_packet_size = 30, sizeof(empty_message) = 24) -/
def is_adb_protocol (p : List Nat) (len : Nat) (_ : ProtoData) : PROBE :=
  if len < 30 then PROBE.AGAIN
  else if probe_adb_cnxn_message p then PROBE.MATCH
  else if len < 30 + 24 then PROBE.AGAIN
  else if !(p.take 24 == empty_message) then PROBE.NEXT
  else boolToProbe (probe_adb_cnxn_message (p.drop 24))

/-- the local `char m_count = p[1]` of `is_socks5_protocol`: the byte is read
through `unsigned char*` but stored into a plain `char` (signed on the
reference platform), so a byte of 128 or more becomes a negative count. -/
def socks5_m_count (p : List Nat) : Int :=
  if p.getD 1 0 % 256 < 128 then ((p.getD 1 0 % 256 : Nat) : Int)
  else ((p.getD 1 0 % 256 : Nat) : Int) - 256

/-- `is_socks5_protocol` -/
def is_socks5_protocol (p : List Nat) (len : Nat) (_ : ProtoData) : PROBE :=
  if len < 2 then PROBE.AGAIN
  else if p.getD 0 0 % 256 ≠ 5 then PROBE.NEXT
  else if socks5_m_count p < 1 ∨ 10 < socks5_m_count p then PROBE.NEXT
  else if (len : Int) < 2 + socks5_m_count p then PROBE.AGAIN
  else if (List.range (socks5_m_count p).toNat).any
      (fun i => 9 < p.getD (2 + i) 0 % 256) then PROBE.NEXT
  else PROBE.MATCH

/-- patterns stored in `proto->data` for the regex probe; on a mismatched
configuration the C code would dereference garbage, we read no patterns. -/
def getPatterns : ProtoData → List (List Nat → Bool)
  | ProtoData.regex ps => ps
  | _ => []

/-- `regex_probe`: walk the NULL-terminated pattern array, return whether some
pattern matched.  `regexec` is called with `REG_STARTEND` and the region
`[0, len)`; it is external code, modelled from the spec as a function of
exactly that slice (see `ProtoData`). -/
def regex_probe (p : List Nat) (len : Nat) (d : ProtoData) : PROBE :=
  boolToProbe ((getPatterns d).any fun pat => pat (p.take len))

/-- `is_true`: the probe of "anyprot" (and of the "timeout" pseudo-protocol);
`return 1` is PROBE_MATCH. -/
def is_true (_ : List Nat) (_ : Nat) (_ : ProtoData) : PROBE :=
  boolToProbe true

/-- the `builtins[]` table of probe.c, in source order. -/
def builtins : List (String × (List Nat → Nat → ProtoData → PROBE)) :=
  [("ssh", is_ssh_protocol),
   ("openvpn", is_openvpn_protocol),
   ("tinc", is_tinc_protocol),
   ("xmpp", is_xmpp_protocol),
   ("http", is_http_protocol),
   ("tls", is_tls_protocol),
   ("adb", is_adb_protocol),
   ("socks5", is_socks5_protocol),
   ("anyprot", is_true)]

/-- `struct sslhcfg_protocols_item`, restricted to the fields probe.c reads.
Probes only dereference `proto->data`, so the stored probe function receives
the data component rather than the whole item (avoiding a recursive type). -/
structure ProtocolsItem where
  name : String
  probe : Option (List Nat → Nat → ProtoData → PROBE)
  minlength_is_present : Bool
  minlength : Nat
  data : ProtoData

/-- `timeout_protocol()`: first entry whose name equals `cfg.on_timeout`,
else `&cfg.protocols[0]` (an out-of-bounds access, hence `none`, when the
protocol list is empty). -/
def timeout_protocol (protos : List ProtocolsItem) (on_timeout : String) :
    Option ProtocolsItem :=
  match protos.find? (fun q => q.name == on_timeout) with
  | some q => some q
  | none => protos[0]?

/-- the `for` loop of `probe_buffer`, carrying the `again` counter; `rest` is
the suffix of `cfg.protocols` still to scan.  The loop body tests
`i == cfg.protocols_len - 1`, i.e. whether the current entry is the last one,
which for a suffix means `rest.isEmpty` after taking the head.  The two
`if again` branches are the single post-loop tail of the C function, reached
either by falling off the loop or by the `break` on a trailing "anyprot".
The exhaustion fallback `&cfg.protocols[cfg.protocols_len-1]` is an
out-of-bounds access (`none`) when the protocol list is empty. -/
def probe_buffer_loop (protos : List ProtocolsItem) (buf : List Nat) (len : Nat) :
    List ProtocolsItem → Nat → PROBE × Option ProtocolsItem
  | [], again =>
    if again ≠ 0 then (PROBE.AGAIN, none)
    else (PROBE.MATCH, protos[protos.length - 1]?)
  | q :: rest, again =>
    match q.probe with
    | none => probe_buffer_loop protos buf len rest again
    | some f =>
      if rest.isEmpty && q.name == "anyprot" then
        if again ≠ 0 then (PROBE.AGAIN, none)
        else (PROBE.MATCH, protos[protos.length - 1]?)
      else if q.minlength_is_present && decide (len < q.minlength) then
        probe_buffer_loop protos buf len rest (again + 1)
      else
        match f buf len q.data with
        | PROBE.MATCH => (PROBE.MATCH, some q)
        | PROBE.AGAIN => probe_buffer_loop protos buf len rest (again + 1)
        | PROBE.NEXT => probe_buffer_loop protos buf len rest again

/-- `probe_buffer(buf, len, proto)`: run the loop over the whole configured
list with `again = 0`; the returned option is the out-parameter `*proto`
(`none` encodes the initial `*proto = NULL`). -/
def probe_buffer (protos : List ProtocolsItem) (buf : List Nat) (len : Nat) :
    PROBE × Option ProtocolsItem :=
  probe_buffer_loop protos buf len protos 0

/-- `probe_client_protocol(cnx)`: one `read` modelled by its return value `n`
and the bytes it produced; on `n > 0` the bytes are appended to the deferred
buffer (`defer_write`) and `probe_buffer` runs on the accumulated data, else
the last configured protocol is selected with PROBE_MATCH. -/
def probe_client_protocol (protos : List ProtocolsItem) (n : Int)
    (buffer deferred : List Nat) : PROBE × Option ProtocolsItem :=
  if 0 < n then
    let newDeferred := deferred ++ buffer.take n.toNat
    probe_buffer protos newDeferred newDeferred.length
  else
    (PROBE.MATCH, protos[protos.length - 1]?)

/-!
Specification-side definitions.  Each is written from the spec's (or the
claim's) wording and later proved equal to the source translation above.
-/

/-- Spec 4.D: the contribution of one configured entry to the arbitration
pass: `none` for an entry without a probe (skipped), an implicit AGAIN when
`min_length` is set and the buffer is shorter, else the probe's own result. -/
def entryOutcome (buf : List Nat) (len : Nat) (q : ProtocolsItem) : Option PROBE :=
  match q.probe with
  | none => none
  | some f =>
    some (if q.minlength_is_present && decide (len < q.minlength) then PROBE.AGAIN
          else f buf len q.data)

/-- Spec 4.D step 2b: the entries the arbitration loop actually scans; a
final entry that has a probe and is named "anyprot" is never reached. -/
def consideredList : List ProtocolsItem → List ProtocolsItem
  | [] => []
  | q :: rest =>
    if rest.isEmpty && q.probe.isSome && q.name == "anyprot" then []
    else q :: consideredList rest

/-- Spec 4.D, steps 1-3 written declaratively: the first scanned entry whose
contribution is MATCH wins; failing that, AGAIN with no entry if any scanned
entry contributed AGAIN; otherwise MATCH on the last configured entry. -/
def probe_buffer_spec (protos : List ProtocolsItem) (buf : List Nat) (len : Nat) :
    PROBE × Option ProtocolsItem :=
  match (consideredList protos).find?
      (fun q => decide (entryOutcome buf len q = some PROBE.MATCH)) with
  | some q => (PROBE.MATCH, some q)
  | none =>
    if (consideredList protos).any
        (fun q => decide (entryOutcome buf len q = some PROBE.AGAIN)) then
      (PROBE.AGAIN, none)
    else (PROBE.MATCH, protos[protos.length - 1]?)

/-- Spec 4.A, SOCKS5 recognizer in the claim's words: version byte 5, method
count in 1..10, enough bytes for the advertised methods, every method byte
at most 9. -/
def is_socks5_spec (b : List Nat) : PROBE :=
  if b.length < 2 then PROBE.AGAIN
  else if b.getD 0 0 ≠ 5 then PROBE.NEXT
  else if ¬(1 ≤ b.getD 1 0 ∧ b.getD 1 0 ≤ 10) then PROBE.NEXT
  else if b.length < 2 + b.getD 1 0 then PROBE.AGAIN
  else if ∃ i < b.getD 1 0, 9 < b.getD (2 + i) 0 then PROBE.NEXT
  else PROBE.MATCH

/-- the claim's "CNXN"/"host:" check at a byte offset: bytes
`[off, off+4)` spell CNXN and bytes `[off+24, off+29)` spell "host:". -/
def adb_cnxn_at (b : List Nat) (off : Nat) : Bool :=
  (b.drop off).take 4 == cnxnBytes && (b.drop (off + 24)).take 5 == hostBytes

/-- Spec 4.A, ADB recognizer in the claim's words (H = 30, E = 24). -/
def is_adb_spec (b : List Nat) : PROBE :=
  if b.length < 30 then PROBE.AGAIN
  else if adb_cnxn_at b 0 then PROBE.MATCH
  else if b.length < 54 then PROBE.AGAIN
  else if !(b.take 24 == (List.replicate 20 0 ++ List.replicate 4 255)) then PROBE.NEXT
  else if adb_cnxn_at b 24 then PROBE.MATCH
  else PROBE.NEXT

/-- Spec 4.A, HTTP recognizer in the claim's words: MATCH on an "HTTP"
substring, else scan the methods in order for the first one that is either
longer than the slice (AGAIN) or a prefix of it (MATCH); NEXT if none. -/
def is_http_spec (b : List Nat) : PROBE :=
  if hasSub b httpBytes then PROBE.MATCH
  else
    match http_methods.find? (fun m => decide (b.length < m.length) || m.isPrefixOf b) with
    | some m => if b.length < m.length then PROBE.AGAIN else PROBE.MATCH
    | none => PROBE.NEXT

/-- ASCII lower-casing of a byte, for the case-sensitivity claim. -/
def lowerB (c : Nat) : Nat := if 65 ≤ c ∧ c ≤ 90 then c + 32 else c

/-- `caseMatch s m`: `s` and `m` have the same length and agree at every
position up to ASCII letter case ("differs only in letter case" once `s ≠ m`). -/
def caseMatch : List Nat → List Nat → Bool
  | [], [] => true
  | x :: xs, c :: cs => lowerB x == lowerB c && caseMatch xs cs
  | _, _ => false

/-- the bytes case-equivalent to `c`. -/
def caseForms (c : Nat) : List Nat :=
  if 65 ≤ c ∧ c ≤ 90 then [c, c + 32]
  else if 97 ≤ c ∧ c ≤ 122 then [c, c - 32]
  else [c]

/-- all byte strings case-equivalent to `m`. -/
def enumVariants : List Nat → List (List Nat)
  | [] => [[]]
  | c :: cs => (caseForms c).flatMap fun x => (enumVariants cs).map (x :: ·)

/-- the probes of probe.c whose recognizer is entirely local code and whose
acceptance is monotone under buffer extension (every builtin except
openvpn, tls and regex; the latter two delegate to configured external
parsers). -/
def mono_probes : List (List Nat → Nat → ProtoData → PROBE) :=
  [is_ssh_protocol, is_tinc_protocol, is_xmpp_protocol, is_http_protocol,
   is_adb_protocol, is_socks5_protocol, is_true]

/-- a concrete ssh entry, for witnesses. -/
def egSsh : ProtocolsItem :=
  { name := "ssh", probe := some is_ssh_protocol,
    minlength_is_present := false, minlength := 0, data := ProtoData.nodata }

/-- a concrete trailing anyprot entry, for witnesses. -/
def egAny : ProtocolsItem :=
  { name := "anyprot", probe := some is_true,
    minlength_is_present := false, minlength := 0, data := ProtoData.nodata }

/-- bytes of "SSH-2.0", a concrete client banner for witnesses. -/
def sshBuf : List Nat := [83, 83, 72, 45, 50, 46, 48]

/-!
Theorems.  General-purpose helper lemmas come first, then one theorem per
claim (with a witness where the theorem carries hypotheses).
-/

theorem boolToProbe_eq_match (b : Bool) : boolToProbe b = PROBE.MATCH ↔ b = true := by
  cases b <;> simp [boolToProbe]

theorem isPrefixOf_eq_take (m b : List Nat) :
    m.isPrefixOf b = (b.take m.length == m) := by
  apply Bool.eq_iff_iff.mpr
  rw [ List.isPrefixOf_iff_prefix, beq_iff_eq, List.prefix_iff_eq_take]
  exact ⟨fun h => h.symm, fun h => h.symm⟩

theorem take_eq_of_take_eq {b b' : List Nat} {len k : Nat}
    (h : b.take len = b'.take len) (hk : k ≤ len) : b.take k = b'.take k := by
  have h1 : (b.take len).take k = (b'.take len).take k := by rw [h]
  simpa [List.take_take, Nat.min_eq_left hk] using h1

theorem getD_eq_of_take_eq {b b' : List Nat} {len i : Nat}
    (h : b.take len = b'.take len) (hi : i < len) : b.getD i 0 = b'.getD i 0 := by
  have h1 : (b.take len)[i]? = (b'.take len)[i]? := by rw [h]
  rw [List.getElem?_take, List.getElem?_take, if_pos hi, if_pos hi] at h1
  rw [List.getD_eq_getElem?_getD, List.getD_eq_getElem?_getD, h1]

theorem drop_take_eq_of_take_eq {b b' : List Nat} {len off k : Nat}
    (h : b.take len = b'.take len) (hk : off + k ≤ len) :
    (b.drop off).take k = (b'.drop off).take k := by
  have h2 : b.take (off + k) = b'.take (off + k) := take_eq_of_take_eq h hk
  have e1 : ∀ c : List Nat, (c.take (off + k)).drop off = (c.drop off).take k := by
    intro c
    rw [List.drop_take]
    congr 1
    omega
  rw [← e1 b, ← e1 b', h2]

theorem hasSub_append {l s : List Nat} (t : List Nat) (h : hasSub l s = true) :
    hasSub (l ++ t) s = true := by
  unfold hasSub at h ⊢
  rw [List.any_eq_true] at h ⊢
  obtain ⟨i, hi, hp⟩ := h
  rw [List.mem_range] at hi
  refine ⟨i, ?_, ?_⟩
  · rw [List.mem_range, List.length_append]
    omega
  · rw [ List.isPrefixOf_iff_prefix] at hp ⊢
    have hd : (l ++ t).drop i = l.drop i ++ t :=
      List.drop_append_of_le_length (by omega)
    rw [hd]
    exact hp.trans ⟨t, rfl⟩

theorem probe_buffer_loop_eq (protos : List ProtocolsItem) (buf : List Nat) (len : Nat) :
    ∀ (rest : List ProtocolsItem) (again : Nat),
      probe_buffer_loop protos buf len rest again =
        match (consideredList rest).find?
            (fun q => decide (entryOutcome buf len q = some PROBE.MATCH)) with
        | some q => (PROBE.MATCH, some q)
        | none =>
          if again ≠ 0 ∨ (consideredList rest).any
              (fun q => decide (entryOutcome buf len q = some PROBE.AGAIN)) = true then
            (PROBE.AGAIN, none)
          else (PROBE.MATCH, protos[protos.length - 1]?) := by
  intro rest
  induction rest with
  | nil =>
    intro again
    by_cases ha : again = 0 <;>
      simp [probe_buffer_loop, consideredList, ha]
  | cons q rest ih =>
    intro again
    cases hq : q.probe with
    | none =>
      have hcl : consideredList (q :: rest) = q :: consideredList rest := by
        simp [consideredList, hq]
      have hout : entryOutcome buf len q = none := by
        simp [entryOutcome, hq]
      rw [show probe_buffer_loop protos buf len (q :: rest) again =
            probe_buffer_loop protos buf len rest again by
          simp [probe_buffer_loop, hq]]
      rw [ih, hcl]
      simp [List.find?_cons, hout]
    | some f =>
      by_cases hbr : (rest.isEmpty && q.name == "anyprot") = true
      · have hcl : consideredList (q :: rest) = [] := by
          obtain ⟨h1, h2⟩ := Bool.and_eq_true_iff.mp hbr
          simp [consideredList, h1, h2, hq]
        rw [show probe_buffer_loop protos buf len (q :: rest) again =
              (if again ≠ 0 then (PROBE.AGAIN, none)
               else (PROBE.MATCH, protos[protos.length - 1]?)) by
            simp [probe_buffer_loop, hq, hbr]]
        rw [hcl]
        by_cases ha : again = 0 <;> simp [ha]
      · have hcl : consideredList (q :: rest) = q :: consideredList rest := by
          have : (rest.isEmpty && q.probe.isSome && q.name == "anyprot") = false := by
            rw [hq]
            rcases h1 : rest.isEmpty <;> rcases h2 : (q.name == "anyprot") <;>
              simp_all
          simp [consideredList, this]
        by_cases hmin : (q.minlength_is_present && decide (len < q.minlength)) = true
        · have hout : entryOutcome buf len q = some PROBE.AGAIN := by
            simp [entryOutcome, hq, hmin]
          rw [show probe_buffer_loop protos buf len (q :: rest) again =
                probe_buffer_loop protos buf len rest (again + 1) by
              simp [probe_buffer_loop, hq, hbr, hmin]]
          rw [ih, hcl]
          rcases hfind : (consideredList rest).find?
              (fun q => decide (entryOutcome buf len q = some PROBE.MATCH)) with _ | q' <;>
            simp [List.find?_cons, hout, hfind]
        · cases hr : f buf len q.data with
          | MATCH =>
            have hout : entryOutcome buf len q = some PROBE.MATCH := by
              simp [entryOutcome, hq, hmin, hr]
            rw [show probe_buffer_loop protos buf len (q :: rest) again =
                  (PROBE.MATCH, some q) by
                simp [probe_buffer_loop, hq, hbr, hmin, hr]]
            rw [hcl]
            simp [List.find?_cons, hout]
          | AGAIN =>
            have hout : entryOutcome buf len q = some PROBE.AGAIN := by
              simp [entryOutcome, hq, hmin, hr]
            rw [show probe_buffer_loop protos buf len (q :: rest) again =
                  probe_buffer_loop protos buf len rest (again + 1) by
                simp [probe_buffer_loop, hq, hbr, hmin, hr]]
            rw [ih, hcl]
            rcases hfind : (consideredList rest).find?
                (fun q => decide (entryOutcome buf len q = some PROBE.MATCH)) with _ | q' <;>
              simp [List.find?_cons, hout, hfind]
          | NEXT =>
            have hout : entryOutcome buf len q = some PROBE.NEXT := by
              simp [entryOutcome, hq, hmin, hr]
            rw [show probe_buffer_loop protos buf len (q :: rest) again =
                  probe_buffer_loop protos buf len rest again by
                simp [probe_buffer_loop, hq, hbr, hmin, hr]]
            rw [ih, hcl]
            simp [List.find?_cons, hout]

/-- C1: for every non-empty configured protocol list and every byte buffer,
`probe_buffer` scans entries in configured order, skipping entries without a
probe and stopping before a last entry named "anyprot"; an entry whose
min_length exceeds the buffer length is not invoked and counts as AGAIN; the
first probe returning MATCH makes `probe_buffer` return (MATCH, that entry);
if no probe matched and at least one entry contributed AGAIN it returns
(AGAIN, none); otherwise it returns (MATCH, last-configured-entry).  All of
this is the declarative arbiter `probe_buffer_spec`. -/
theorem probe_buffer_eq_spec (protos : List ProtocolsItem) (buf : List Nat)
    (len : Nat) (hne : protos ≠ []) :
    probe_buffer protos buf len = probe_buffer_spec protos buf len := by
  have h0 := probe_buffer_loop_eq protos buf len protos 0
  rw [probe_buffer, h0, probe_buffer_spec]
  rcases hfind : (consideredList protos).find?
      (fun q => decide (entryOutcome buf len q = some PROBE.MATCH)) with _ | q' <;>
    simp [hfind]

/-- witness for `probe_buffer_eq_spec`: a concrete [ssh, anyprot]
configuration probing an SSH banner. -/
theorem probe_buffer_eq_spec_witness :
    ([egSsh, egAny] : List ProtocolsItem) ≠ [] ∧
      probe_buffer [egSsh, egAny] sshBuf sshBuf.length =
        probe_buffer_spec [egSsh, egAny] sshBuf sshBuf.length :=
  ⟨by simp, probe_buffer_eq_spec [egSsh, egAny] sshBuf sshBuf.length (by simp)⟩

theorem getD_lt_256 {b : List Nat} (hb : ∀ x ∈ b, x < 256) (i : Nat) :
    b.getD i 0 < 256 := by
  by_cases h : i < b.length
  · rw [List.getD_eq_getElem _ _ h]
    exact hb _ (List.getElem_mem h)
  · rw [List.getD_eq_default _ _ (by omega)]
    omega

/-- C4: for every byte slice, the OpenVPN probe returns AGAIN below two
bytes; otherwise, with L the first two bytes read big-endian, it returns
MATCH iff L equals the slice length minus 2, and NEXT otherwise. -/
theorem openvpn_spec_correct (b : List Nat) (d : ProtoData)
    (hb : ∀ x ∈ b, x < 256) :
    is_openvpn_protocol b b.length d =
      (if b.length < 2 then PROBE.AGAIN
       else if b.getD 0 0 * 256 + b.getD 1 0 = b.length - 2 then PROBE.MATCH
       else PROBE.NEXT) := by
  have e0 : b.getD 0 0 % 256 = b.getD 0 0 := Nat.mod_eq_of_lt (getD_lt_256 hb 0)
  have e1 : b.getD 1 0 % 256 = b.getD 1 0 := Nat.mod_eq_of_lt (getD_lt_256 hb 1)
  rw [is_openvpn_protocol, e0, e1]
  by_cases hl : b.length < 2
  · simp [hl]
  · by_cases he : b.getD 0 0 * 256 + b.getD 1 0 = b.length - 2 <;>
      simp [hl, he, boolToProbe]

/-- witness for `openvpn_spec_correct`: the two-byte buffer 00 00 declares
payload length 0 and matches. -/
theorem openvpn_spec_correct_witness :
    (∀ x ∈ ([0, 0] : List Nat), x < 256) ∧
      is_openvpn_protocol [0, 0] 2 ProtoData.nodata = PROBE.MATCH :=
  ⟨by decide, (openvpn_spec_correct [0, 0] ProtoData.nodata (by decide)).trans (by decide)⟩

/-- C5: for every byte slice, the SOCKS5 probe returns AGAIN below two
bytes; NEXT unless byte 0 is 5; NEXT unless the method count byte is in
1..10; AGAIN if the slice is shorter than 2 plus the count; NEXT if some
advertised method byte exceeds 9; MATCH otherwise.  The signed `char` cast
in the source agrees with this reading on every byte value. -/
theorem socks5_spec_correct (b : List Nat) (d : ProtoData)
    (hb : ∀ x ∈ b, x < 256) :
    is_socks5_protocol b b.length d = is_socks5_spec b := by
  have h1 : b.getD 1 0 < 256 := getD_lt_256 hb 1
  have e0 : b.getD 0 0 % 256 = b.getD 0 0 := Nat.mod_eq_of_lt (getD_lt_256 hb 0)
  have e1 : b.getD 1 0 % 256 = b.getD 1 0 := Nat.mod_eq_of_lt h1
  have eAll : ∀ i : Nat, b.getD (2 + i) 0 % 256 = b.getD (2 + i) 0 :=
    fun i => Nat.mod_eq_of_lt (getD_lt_256 hb (2 + i))
  have hmc : socks5_m_count b =
      (if b.getD 1 0 < 128 then (b.getD 1 0 : Int) else (b.getD 1 0 : Int) - 256) := by
    rw [socks5_m_count, e1]
  rw [is_socks5_protocol, is_socks5_spec]
  simp only [e0, eAll, hmc]
  by_cases hl : b.length < 2
  · simp [hl]
  rw [if_neg hl, if_neg hl]
  by_cases h5 : b.getD 0 0 ≠ 5
  · rw [if_pos h5, if_pos h5]
  rw [if_neg h5, if_neg h5]
  by_cases hmr : 1 ≤ b.getD 1 0 ∧ b.getD 1 0 ≤ 10
  · have hlt : b.getD 1 0 < 128 := by omega
    have hnc : ¬((if b.getD 1 0 < 128 then (b.getD 1 0 : Int) else (b.getD 1 0 : Int) - 256) < 1 ∨
        10 < (if b.getD 1 0 < 128 then (b.getD 1 0 : Int) else (b.getD 1 0 : Int) - 256)) := by
      rw [if_pos hlt]
      omega
    rw [if_neg hnc, if_neg (by omega : ¬¬(1 ≤ b.getD 1 0 ∧ b.getD 1 0 ≤ 10))]
    have htn : ((if b.getD 1 0 < 128 then (b.getD 1 0 : Int) else (b.getD 1 0 : Int) - 256)).toNat
        = b.getD 1 0 := by
      rw [if_pos hlt]
      omega
    by_cases hlen : b.length < 2 + b.getD 1 0
    · have hli : (b.length : Int) < 2 +
          (if b.getD 1 0 < 128 then (b.getD 1 0 : Int) else (b.getD 1 0 : Int) - 256) := by
        rw [if_pos hlt]
        omega
      rw [if_pos hli, if_pos hlen]
    · have hli : ¬((b.length : Int) < 2 +
          (if b.getD 1 0 < 128 then (b.getD 1 0 : Int) else (b.getD 1 0 : Int) - 256)) := by
        rw [if_pos hlt]
        omega
      rw [if_neg hli, if_neg hlen, htn]
      by_cases hex : ∃ i < b.getD 1 0, 9 < b.getD (2 + i) 0
      · have hany : ((List.range (b.getD 1 0)).any fun i => decide (9 < b.getD (2 + i) 0)) = true := by
          rw [List.any_eq_true]
          obtain ⟨i, hik, hx⟩ := hex
          exact ⟨i, List.mem_range.mpr hik, by simpa using hx⟩
        rw [if_pos hany, if_pos hex]
      · have hany : ¬(((List.range (b.getD 1 0)).any fun i => decide (9 < b.getD (2 + i) 0)) = true) := by
          rw [List.any_eq_true]
          rintro ⟨i, hik, hx⟩
          exact hex ⟨i, List.mem_range.mp hik, by simpa using hx⟩
        rw [if_neg hany, if_neg hex]
  · have hc : ((if b.getD 1 0 < 128 then (b.getD 1 0 : Int) else (b.getD 1 0 : Int) - 256) < 1 ∨
        10 < (if b.getD 1 0 < 128 then (b.getD 1 0 : Int) else (b.getD 1 0 : Int) - 256)) := by
      by_cases h128 : b.getD 1 0 < 128
      · rw [if_pos h128]
        omega
      · rw [if_neg h128]
        omega
    rw [if_pos hc, if_pos (by exact hmr : ¬(1 ≤ b.getD 1 0 ∧ b.getD 1 0 ≤ 10))]

/-- witness for `socks5_spec_correct`: version 5, two methods 0 and 1. -/
theorem socks5_spec_correct_witness :
    (∀ x ∈ ([5, 2, 0, 1] : List Nat), x < 256) ∧
      is_socks5_protocol [5, 2, 0, 1] 4 ProtoData.nodata = PROBE.MATCH :=
  ⟨by decide, (socks5_spec_correct [5, 2, 0, 1] ProtoData.nodata (by decide)).trans (by decide)⟩

/-- C6: for every byte slice, the ADB probe returns AGAIN below 30 bytes;
MATCH if the slice begins with CNXN and carries "host:" at offset 24;
otherwise AGAIN below 54 bytes; NEXT unless the first 24 bytes are 20 zero
bytes followed by four 0xFF bytes; else MATCH iff the CNXN/"host:" check
holds at offset 24. -/
theorem adb_spec_correct (b : List Nat) (d : ProtoData) :
    is_adb_protocol b b.length d = is_adb_spec b := by
  have hc0 : adb_cnxn_at b 0 = probe_adb_cnxn_message b := by
    simp [adb_cnxn_at, probe_adb_cnxn_message]
  have hc24 : adb_cnxn_at b 24 = probe_adb_cnxn_message (b.drop 24) := by
    simp [adb_cnxn_at, probe_adb_cnxn_message, List.drop_drop]
  have hem : empty_message = List.replicate 20 0 ++ List.replicate 4 255 := by decide
  rw [is_adb_protocol, is_adb_spec, hc0, hc24, hem]
  cases hcc : probe_adb_cnxn_message (b.drop 24) <;>
    simp [boolToProbe, hcc]

theorem probe_http_loop_eq (b : List Nat) :
    ∀ ms : List (List Nat),
      probe_http_loop b b.length ms =
        match ms.find? (fun m => decide (b.length < m.length) || m.isPrefixOf b) with
        | some m => if b.length < m.length then PROBE.AGAIN else PROBE.MATCH
        | none => PROBE.NEXT := by
  intro ms
  induction ms with
  | nil => simp [probe_http_loop]
  | cons m ms ih =>
    by_cases hlm : b.length < m.length
    · rw [show probe_http_loop b b.length (m :: ms) = PROBE.AGAIN by
        simp [probe_http_loop, probe_http_method, hlm]]
      rw [List.find?_cons_of_pos _ (by simp [hlm])]
      simp [hlm]
    · by_cases hpre : (b.take m.length == m) = true
      · rw [show probe_http_loop b b.length (m :: ms) = PROBE.MATCH by
          simp [probe_http_loop, probe_http_method, hlm, hpre, boolToProbe]]
        rw [List.find?_cons_of_pos _ (by simp [isPrefixOf_eq_take, hpre])]
        simp [hlm]
      · rw [show probe_http_loop b b.length (m :: ms) = probe_http_loop b b.length ms by
          simp [probe_http_loop, probe_http_method, hlm, hpre, boolToProbe]]
        rw [List.find?_cons_of_neg _ (by simp [isPrefixOf_eq_take, hpre, hlm])]
        exact ih

/-- C7: for every byte slice, the HTTP probe returns MATCH when "HTTP"
occurs anywhere in the slice; otherwise it walks OPTIONS, GET, HEAD, POST,
PUT, DELETE, TRACE, CONNECT in that order, returning AGAIN at the first
method longer than the slice and MATCH at the first method prefixing it,
and NEXT if no method applies. -/
theorem http_spec_correct (b : List Nat) (d : ProtoData) :
    is_http_protocol b b.length d = is_http_spec b := by
  rw [is_http_protocol, is_http_spec, List.take_length]
  by_cases hs : hasSub b httpBytes = true
  · simp [hs]
  · simp only [Bool.not_eq_true] at hs
    simp only [hs, Bool.false_eq_true, if_false]
    exact probe_http_loop_eq b http_methods

theorem mem_caseForms {x c : Nat} (h : lowerB x = lowerB c) : x ∈ caseForms c := by
  rw [lowerB, lowerB] at h
  rw [caseForms]
  by_cases hx : 65 ≤ x ∧ x ≤ 90 <;> by_cases hc : 65 ≤ c ∧ c ≤ 90
  · rw [if_pos hx, if_pos hc] at h
    rw [if_pos hc]
    simp only [List.mem_cons, List.mem_singleton]
    omega
  · rw [if_pos hx, if_neg hc] at h
    rw [if_neg hc, if_pos (by omega : 97 ≤ c ∧ c ≤ 122)]
    simp only [List.mem_cons, List.mem_singleton]
    omega
  · rw [if_neg hx, if_pos hc] at h
    rw [if_pos hc]
    simp only [List.mem_cons, List.mem_singleton]
    omega
  · rw [if_neg hx, if_neg hc] at h
    rw [if_neg hc]
    by_cases h97 : 97 ≤ c ∧ c ≤ 122
    · rw [if_pos h97]
      simp only [List.mem_cons, List.mem_singleton]
      omega
    · rw [if_neg h97]
      simp only [List.mem_singleton]
      omega

theorem caseMatch_length {s m : List Nat} (h : caseMatch s m = true) :
    s.length = m.length := by
  induction s generalizing m with
  | nil =>
    cases m with
    | nil => rfl
    | cons c cs => simp [caseMatch] at h
  | cons x xs ih =>
    cases m with
    | nil => simp [caseMatch] at h
    | cons c cs =>
      rw [caseMatch, Bool.and_eq_true] at h
      simp [ih h.2]

theorem caseMatch_mem {s m : List Nat} (h : caseMatch s m = true) :
    s ∈ enumVariants m := by
  induction m generalizing s with
  | nil =>
    cases s with
    | nil => simp [enumVariants]
    | cons x xs => simp [caseMatch] at h
  | cons c cs ih =>
    cases s with
    | nil => simp [caseMatch] at h
    | cons x xs =>
      rw [caseMatch, Bool.and_eq_true] at h
      rw [enumVariants, List.mem_flatMap]
      refine ⟨x, mem_caseForms (by simpa using h.1), ?_⟩
      rw [List.mem_map]
      exact ⟨xs, ih h.2, rfl⟩

/-- C3 is false on the code: the slice "get" has exactly the length of the
method GET, differs from it only in letter case, contains no "HTTP"
substring, yet the HTTP probe returns AGAIN (the longer method OPTIONS is
checked first and is still pending), not NEXT. -/
theorem http_case_counterexample :
    ([71, 69, 84] : List Nat) ∈ http_methods ∧
    caseMatch [103, 101, 116] [71, 69, 84] = true ∧
    ([103, 101, 116] : List Nat) ≠ [71, 69, 84] ∧
    hasSub [103, 101, 116] httpBytes = false ∧
    ([103, 101, 116] : List Nat).length = ([71, 69, 84] : List Nat).length ∧
    is_http_protocol [103, 101, 116] 3 ProtoData.nodata ≠ PROBE.NEXT ∧
    is_http_protocol [103, 101, 116] 3 ProtoData.nodata = PROBE.AGAIN := by
  decide

set_option maxRecDepth 100000 in
/-- C3 (amended): for every HTTP method name M and every slice of length
exactly len(M) that differs from M only in letter case (and so cannot
contain the substring "HTTP"), the probe never returns MATCH — matching is
case-sensitive — but the exact outcome is NEXT only for the longest methods
(len 7: OPTIONS, CONNECT); for shorter methods it is AGAIN, because a longer
method later in the chain is still waiting for more bytes. -/
theorem http_method_case_sensitive (m : List Nat) (hm : m ∈ http_methods)
    (s : List Nat) (hc : caseMatch s m = true) (hne : s ≠ m)
    (hh : hasSub s httpBytes = false) :
    is_http_protocol s s.length ProtoData.nodata =
      (if s.length = 7 then PROBE.NEXT else PROBE.AGAIN) := by
  have hlen := caseMatch_length hc
  have hmem := caseMatch_mem hc
  fin_cases hm
  · have h7 : s.length = 7 := by simpa using hlen
    rw [h7, if_pos rfl]
    exact (by decide :
        ∀ t ∈ enumVariants [79, 80, 84, 73, 79, 78, 83],
          t ≠ [79, 80, 84, 73, 79, 78, 83] →
            is_http_protocol t 7 ProtoData.nodata = PROBE.NEXT) s hmem hne
  · have h7 : s.length = 3 := by simpa using hlen
    rw [h7, if_neg (by decide)]
    exact (by decide :
        ∀ t ∈ enumVariants [71, 69, 84],
          t ≠ [71, 69, 84] →
            is_http_protocol t 3 ProtoData.nodata = PROBE.AGAIN) s hmem hne
  · have h7 : s.length = 4 := by simpa using hlen
    rw [h7, if_neg (by decide)]
    exact (by decide :
        ∀ t ∈ enumVariants [72, 69, 65, 68],
          t ≠ [72, 69, 65, 68] →
            is_http_protocol t 4 ProtoData.nodata = PROBE.AGAIN) s hmem hne
  · have h7 : s.length = 4 := by simpa using hlen
    rw [h7, if_neg (by decide)]
    exact (by decide :
        ∀ t ∈ enumVariants [80, 79, 83, 84],
          t ≠ [80, 79, 83, 84] →
            is_http_protocol t 4 ProtoData.nodata = PROBE.AGAIN) s hmem hne
  · have h7 : s.length = 3 := by simpa using hlen
    rw [h7, if_neg (by decide)]
    exact (by decide :
        ∀ t ∈ enumVariants [80, 85, 84],
          t ≠ [80, 85, 84] →
            is_http_protocol t 3 ProtoData.nodata = PROBE.AGAIN) s hmem hne
  · have h7 : s.length = 6 := by simpa using hlen
    rw [h7, if_neg (by decide)]
    exact (by decide :
        ∀ t ∈ enumVariants [68, 69, 76, 69, 84, 69],
          t ≠ [68, 69, 76, 69, 84, 69] →
            is_http_protocol t 6 ProtoData.nodata = PROBE.AGAIN) s hmem hne
  · have h7 : s.length = 5 := by simpa using hlen
    rw [h7, if_neg (by decide)]
    exact (by decide :
        ∀ t ∈ enumVariants [84, 82, 65, 67, 69],
          t ≠ [84, 82, 65, 67, 69] →
            is_http_protocol t 5 ProtoData.nodata = PROBE.AGAIN) s hmem hne
  · have h7 : s.length = 7 := by simpa using hlen
    rw [h7, if_pos rfl]
    exact (by decide :
        ∀ t ∈ enumVariants [67, 79, 78, 78, 69, 67, 84],
          t ≠ [67, 79, 78, 78, 69, 67, 84] →
            is_http_protocol t 7 ProtoData.nodata = PROBE.NEXT) s hmem hne

/-- witness for `http_method_case_sensitive`: the lowercase variant "get"
of GET yields AGAIN. -/
theorem http_method_case_sensitive_witness :
    caseMatch [103, 101, 116] [71, 69, 84] = true ∧
      ([103, 101, 116] : List Nat) ≠ [71, 69, 84] ∧
      is_http_protocol [103, 101, 116] ([103, 101, 116] : List Nat).length
          ProtoData.nodata =
        (if ([103, 101, 116] : List Nat).length = 7 then PROBE.NEXT
         else PROBE.AGAIN) :=
  ⟨by decide, by decide,
   http_method_case_sensitive [71, 69, 84] (by decide) [103, 101, 116]
     (by decide) (by decide) (by decide)⟩

theorem getD_append_left {b t : List Nat} {i : Nat} (h : i < b.length) :
    (b ++ t).getD i 0 = b.getD i 0 := by
  rw [List.getD_eq_getElem?_getD, List.getD_eq_getElem?_getD,
    List.getElem?_append_left h]

theorem any_congr_mem {α : Type} {l : List α} {p q : α → Bool}
    (h : ∀ a ∈ l, p a = q a) : l.any p = l.any q := by
  apply Bool.eq_iff_iff.mpr
  rw [List.any_eq_true, List.any_eq_true]
  constructor
  · rintro ⟨a, ha, hpa⟩
    exact ⟨a, ha, by rw [← h a ha]; exact hpa⟩
  · rintro ⟨a, ha, hqa⟩
    exact ⟨a, ha, by rw [h a ha]; exact hqa⟩

theorem ssh_mono {b' b : List Nat} (d : ProtoData) (hp : b' <+: b)
    (hm : is_ssh_protocol b' b'.length d = PROBE.MATCH) :
    is_ssh_protocol b b.length d = PROBE.MATCH := by
  obtain ⟨t, rfl⟩ := hp
  rw [is_ssh_protocol] at hm ⊢
  by_cases h4 : b'.length < 4
  · simp [h4] at hm
  · rw [if_neg h4, boolToProbe_eq_match] at hm
    rw [if_neg (by rw [List.length_append]; omega), boolToProbe_eq_match,
      List.take_append_of_le_length (by omega)]
    exact hm

theorem tinc_mono {b' b : List Nat} (d : ProtoData) (hp : b' <+: b)
    (hm : is_tinc_protocol b' b'.length d = PROBE.MATCH) :
    is_tinc_protocol b b.length d = PROBE.MATCH := by
  obtain ⟨t, rfl⟩ := hp
  rw [is_tinc_protocol] at hm ⊢
  by_cases h2 : b'.length < 2
  · simp [h2] at hm
  · rw [if_neg h2, boolToProbe_eq_match] at hm
    rw [if_neg (by rw [List.length_append]; omega), boolToProbe_eq_match,
      List.take_append_of_le_length (by omega)]
    exact hm

theorem xmpp_mono {b' b : List Nat} (d : ProtoData) (hp : b' <+: b)
    (hm : is_xmpp_protocol b' b'.length d = PROBE.MATCH) :
    is_xmpp_protocol b b.length d = PROBE.MATCH := by
  obtain ⟨t, rfl⟩ := hp
  rw [is_xmpp_protocol, List.take_length] at hm
  rw [is_xmpp_protocol, List.take_length]
  cases hsb : hasSub b' jabberBytes with
  | false =>
    rw [hsb] at hm
    by_cases h50 : b'.length < 50 <;> simp [h50] at hm
  | true =>
    rw [hasSub_append t hsb]
    rfl

theorem http_loop_mono {b' t : List Nat} :
    ∀ ms, probe_http_loop b' b'.length ms = PROBE.MATCH →
      probe_http_loop (b' ++ t) (b' ++ t).length ms = PROBE.MATCH := by
  intro ms
  induction ms with
  | nil =>
    intro h
    simp [probe_http_loop] at h
  | cons m ms ih =>
    intro h
    rw [probe_http_loop] at h
    by_cases hlm : b'.length < m.length
    · rw [show probe_http_method b' b'.length m = PROBE.AGAIN by
        simp [probe_http_method, hlm]] at h
      exact PROBE.noConfusion h
    · by_cases hpre : (b'.take m.length == m) = true
      · have hM : probe_http_method (b' ++ t) (b' ++ t).length m = PROBE.MATCH := by
          rw [probe_http_method, if_neg (by rw [List.length_append]; omega),
            boolToProbe_eq_match, List.take_append_of_le_length (by omega)]
          exact hpre
        rw [probe_http_loop, hM]
      · have hN' : probe_http_method b' b'.length m = PROBE.NEXT := by
          simp [probe_http_method, hlm, boolToProbe, hpre]
        rw [hN'] at h
        have hN : probe_http_method (b' ++ t) (b' ++ t).length m = PROBE.NEXT := by
          rw [probe_http_method, if_neg (by rw [List.length_append]; omega),
            List.take_append_of_le_length (by omega)]
          simp [boolToProbe, hpre]
        rw [probe_http_loop, hN]
        exact ih h

theorem http_mono {b' b : List Nat} (d : ProtoData) (hp : b' <+: b)
    (hm : is_http_protocol b' b'.length d = PROBE.MATCH) :
    is_http_protocol b b.length d = PROBE.MATCH := by
  obtain ⟨t, rfl⟩ := hp
  rw [is_http_protocol, List.take_length] at hm
  rw [is_http_protocol, List.take_length]
  cases hsb : hasSub b' httpBytes with
  | true =>
    rw [hasSub_append t hsb]
    rfl
  | false =>
    rw [hsb] at hm
    simp only [Bool.false_eq_true, if_false] at hm
    cases hsb2 : hasSub (b' ++ t) httpBytes with
    | true => rfl
    | false =>
      simp only [Bool.false_eq_true, if_false]
      exact http_loop_mono http_methods hm

theorem adb_mono {b' b : List Nat} (d : ProtoData) (hp : b' <+: b)
    (hm : is_adb_protocol b' b'.length d = PROBE.MATCH) :
    is_adb_protocol b b.length d = PROBE.MATCH := by
  obtain ⟨t, rfl⟩ := hp
  rw [is_adb_protocol] at hm ⊢
  by_cases h30 : b'.length < 30
  · simp [h30] at hm
  rw [if_neg h30] at hm
  rw [if_neg (by rw [List.length_append]; omega)]
  have hc1 : probe_adb_cnxn_message (b' ++ t) = probe_adb_cnxn_message b' := by
    rw [probe_adb_cnxn_message, probe_adb_cnxn_message,
      List.take_append_of_le_length (by omega),
      List.drop_append_of_le_length (by omega : 24 ≤ b'.length),
      List.take_append_of_le_length (by rw [List.length_drop]; omega)]
  by_cases hcb : probe_adb_cnxn_message b' = true
  · rw [if_pos (by rw [hc1]; exact hcb)]
  rw [if_neg hcb] at hm
  rw [if_neg (by rw [hc1]; exact hcb)]
  by_cases h54 : b'.length < 54
  · simp [h54] at hm
  rw [if_neg h54] at hm
  rw [if_neg (by rw [List.length_append]; omega)]
  by_cases hem : (b'.take 24 == empty_message) = true
  case neg =>
    rw [if_pos (by simp [hem])] at hm
    exact absurd hm (by decide)
  rw [if_neg (by simp [hem]), boolToProbe_eq_match] at hm
  have hem2 : ((b' ++ t).take 24 == empty_message) = true := by
    rw [List.take_append_of_le_length (by omega)]
    exact hem
  rw [if_neg (by simp [hem2]), boolToProbe_eq_match,
    List.drop_append_of_le_length (by omega : 24 ≤ b'.length)]
  rw [probe_adb_cnxn_message] at hm
  rw [probe_adb_cnxn_message]
  rw [Bool.and_eq_true] at hm
  rw [Bool.and_eq_true]
  obtain ⟨hm1, hm2⟩ := hm
  constructor
  · rw [List.take_append_of_le_length (by rw [List.length_drop]; omega)]
    exact hm1
  · rw [List.drop_append_of_le_length (by rw [List.length_drop]; omega : 24 ≤ (b'.drop 24).length),
      List.take_append_of_le_length (by rw [List.length_drop, List.length_drop]; omega)]
    exact hm2

theorem socks5_mono {b' b : List Nat} (d : ProtoData) (hp : b' <+: b)
    (hm : is_socks5_protocol b' b'.length d = PROBE.MATCH) :
    is_socks5_protocol b b.length d = PROBE.MATCH := by
  obtain ⟨t, rfl⟩ := hp
  rw [is_socks5_protocol] at hm ⊢
  by_cases h2 : b'.length < 2
  · simp [h2] at hm
  rw [if_neg h2] at hm
  by_cases h5 : b'.getD 0 0 % 256 ≠ 5
  · rw [if_pos h5] at hm
    exact absurd hm (by decide)
  rw [if_neg h5] at hm
  by_cases hc : socks5_m_count b' < 1 ∨ 10 < socks5_m_count b'
  · rw [if_pos hc] at hm
    exact absurd hm (by decide)
  rw [if_neg hc] at hm
  by_cases hl : (b'.length : Int) < 2 + socks5_m_count b'
  · rw [if_pos hl] at hm
    exact absurd hm (by decide)
  rw [if_neg hl] at hm
  by_cases ha : ((List.range (socks5_m_count b').toNat).any
      fun i => decide (9 < b'.getD (2 + i) 0 % 256)) = true
  · rw [if_pos ha] at hm
    exact absurd hm (by decide)
  have hmc : socks5_m_count (b' ++ t) = socks5_m_count b' := by
    rw [socks5_m_count, socks5_m_count, getD_append_left (by omega)]
  rw [if_neg (by rw [List.length_append]; omega),
    if_neg (by rw [getD_append_left (by omega : (0 : Nat) < b'.length)]; exact h5),
    hmc, if_neg hc]
  rw [if_neg (by rw [List.length_append]; push_cast; omega)]
  have hany2 : ((List.range (socks5_m_count b').toNat).any
        fun i => decide (9 < (b' ++ t).getD (2 + i) 0 % 256)) =
      ((List.range (socks5_m_count b').toNat).any
        fun i => decide (9 < b'.getD (2 + i) 0 % 256)) := by
    apply any_congr_mem
    intro i hi
    rw [List.mem_range] at hi
    rw [getD_append_left (by omega)]
  rw [hany2, if_neg ha]

/-- C2 is false on the code: the OpenVPN probe accepts the two-byte buffer
00 00 (declared payload length 0 equals len-2) but rejects its extension
00 00 01, so acceptance is not monotone under buffer extension. -/
theorem openvpn_not_monotone :
    ([0, 0] : List Nat) <+: [0, 0, 1] ∧
    is_openvpn_protocol [0, 0] 2 ProtoData.nodata = PROBE.MATCH ∧
    is_openvpn_protocol [0, 0, 1] 3 ProtoData.nodata = PROBE.NEXT ∧
    is_openvpn_protocol [0, 0, 1] 3 ProtoData.nodata ≠ PROBE.MATCH :=
  ⟨⟨[1], rfl⟩, by decide, by decide, by decide⟩

/-- C2 (amended): acceptance is monotone under buffer extension for every
probe implemented in probe.c except OpenVPN, whose exact-length check
refutes the original claim (and except TLS and regex, which delegate to
configured external parsers): for ssh, tinc, xmpp, http, adb, socks5 and
the anyprot sentinel, a MATCH on a prefix is preserved on the whole slice. -/
theorem probes_monotone (f : List Nat → Nat → ProtoData → PROBE)
    (hf : f ∈ mono_probes) (d : ProtoData) (b' b : List Nat) (hp : b' <+: b)
    (hm : f b' b'.length d = PROBE.MATCH) : f b b.length d = PROBE.MATCH := by
  simp only [mono_probes, List.mem_cons, List.not_mem_nil, or_false] at hf
  rcases hf with rfl | rfl | rfl | rfl | rfl | rfl | rfl
  · exact ssh_mono d hp hm
  · exact tinc_mono d hp hm
  · exact xmpp_mono d hp hm
  · exact http_mono d hp hm
  · exact adb_mono d hp hm
  · exact socks5_mono d hp hm
  · rfl

/-- witness for `probes_monotone`: the ssh probe keeps matching when the
banner "SSH-" is extended by one byte. -/
theorem probes_monotone_witness :
    is_ssh_protocol ∈ mono_probes ∧
    ([83, 83, 72, 45] : List Nat) <+: [83, 83, 72, 45, 50] ∧
    is_ssh_protocol [83, 83, 72, 45] 4 ProtoData.nodata = PROBE.MATCH ∧
    is_ssh_protocol [83, 83, 72, 45, 50] 5 ProtoData.nodata = PROBE.MATCH :=
  ⟨by simp [mono_probes], ⟨[50], rfl⟩, by decide,
   probes_monotone is_ssh_protocol (by simp [mono_probes]) ProtoData.nodata
     [83, 83, 72, 45] [83, 83, 72, 45, 50] ⟨[50], rfl⟩ (by decide)⟩

theorem ssh_frame {b b' : List Nat} {len : Nat} (h : b.take len = b'.take len)
    (d : ProtoData) : is_ssh_protocol b len d = is_ssh_protocol b' len d := by
  rw [is_ssh_protocol, is_ssh_protocol]
  by_cases h4 : len < 4
  · rw [if_pos h4, if_pos h4]
  · rw [if_neg h4, if_neg h4, take_eq_of_take_eq h (by omega)]

theorem openvpn_frame {b b' : List Nat} {len : Nat} (h : b.take len = b'.take len)
    (d : ProtoData) : is_openvpn_protocol b len d = is_openvpn_protocol b' len d := by
  rw [is_openvpn_protocol, is_openvpn_protocol]
  by_cases h2 : len < 2
  · rw [if_pos h2, if_pos h2]
  · rw [if_neg h2, if_neg h2, getD_eq_of_take_eq h (by omega : (0 : Nat) < len),
      getD_eq_of_take_eq h (by omega : (1 : Nat) < len)]

theorem tinc_frame {b b' : List Nat} {len : Nat} (h : b.take len = b'.take len)
    (d : ProtoData) : is_tinc_protocol b len d = is_tinc_protocol b' len d := by
  rw [is_tinc_protocol, is_tinc_protocol]
  by_cases h2 : len < 2
  · rw [if_pos h2, if_pos h2]
  · rw [if_neg h2, if_neg h2, take_eq_of_take_eq h (by omega)]

theorem xmpp_frame {b b' : List Nat} {len : Nat} (h : b.take len = b'.take len)
    (d : ProtoData) : is_xmpp_protocol b len d = is_xmpp_protocol b' len d := by
  rw [is_xmpp_protocol, is_xmpp_protocol, h]

theorem http_loop_frame {b b' : List Nat} {len : Nat} (h : b.take len = b'.take len) :
    ∀ ms, probe_http_loop b len ms = probe_http_loop b' len ms := by
  intro ms
  induction ms with
  | nil => rfl
  | cons m ms ih =>
    have hme : probe_http_method b len m = probe_http_method b' len m := by
      rw [probe_http_method, probe_http_method]
      by_cases hlm : len < m.length
      · rw [if_pos hlm, if_pos hlm]
      · rw [if_neg hlm, if_neg hlm, take_eq_of_take_eq h (by omega)]
    rw [probe_http_loop, probe_http_loop, hme]
    cases probe_http_method b' len m <;> simp [ih]

theorem http_frame {b b' : List Nat} {len : Nat} (h : b.take len = b'.take len)
    (d : ProtoData) : is_http_protocol b len d = is_http_protocol b' len d := by
  rw [is_http_protocol, is_http_protocol, h, http_loop_frame h http_methods]

theorem tls_frame {b b' : List Nat} {len : Nat} (h : b.take len = b'.take len)
    (d : ProtoData) : is_tls_protocol b len d = is_tls_protocol b' len d := by
  rw [is_tls_protocol, is_tls_protocol, h]

theorem adb_frame {b b' : List Nat} {len : Nat} (h : b.take len = b'.take len)
    (d : ProtoData) : is_adb_protocol b len d = is_adb_protocol b' len d := by
  rw [is_adb_protocol, is_adb_protocol]
  by_cases h30 : len < 30
  · rw [if_pos h30, if_pos h30]
  have hc : probe_adb_cnxn_message b = probe_adb_cnxn_message b' := by
    rw [probe_adb_cnxn_message, probe_adb_cnxn_message,
      take_eq_of_take_eq h (by omega : 4 ≤ len),
      drop_take_eq_of_take_eq h (by omega : 24 + 5 ≤ len)]
  rw [if_neg h30, if_neg h30, hc]
  by_cases hcb : probe_adb_cnxn_message b' = true
  · rw [if_pos hcb, if_pos hcb]
  rw [if_neg hcb, if_neg hcb]
  by_cases h54 : len < 30 + 24
  · rw [if_pos h54, if_pos h54]
  have hc2 : probe_adb_cnxn_message (b.drop 24) = probe_adb_cnxn_message (b'.drop 24) := by
    rw [probe_adb_cnxn_message, probe_adb_cnxn_message,
      drop_take_eq_of_take_eq h (by omega : 24 + 4 ≤ len),
      List.drop_drop, List.drop_drop,
      drop_take_eq_of_take_eq h (by omega : (24 + 24) + 5 ≤ len)]
  rw [if_neg h54, if_neg h54, take_eq_of_take_eq h (by omega : 24 ≤ len), hc2]

theorem socks5_frame {b b' : List Nat} {len : Nat} (h : b.take len = b'.take len)
    (d : ProtoData) : is_socks5_protocol b len d = is_socks5_protocol b' len d := by
  rw [is_socks5_protocol, is_socks5_protocol]
  by_cases h2 : len < 2
  · rw [if_pos h2, if_pos h2]
  rw [if_neg h2, if_neg h2, getD_eq_of_take_eq h (by omega : (0 : Nat) < len)]
  have hmc : socks5_m_count b = socks5_m_count b' := by
    rw [socks5_m_count, socks5_m_count, getD_eq_of_take_eq h (by omega : (1 : Nat) < len)]
  rw [hmc]
  by_cases hc : socks5_m_count b' < 1 ∨ 10 < socks5_m_count b'
  · rw [if_pos hc, if_pos hc]
  rw [if_neg hc, if_neg hc]
  by_cases hl : (len : Int) < 2 + socks5_m_count b'
  · rw [if_pos hl, if_pos hl]
  rw [if_neg hl, if_neg hl]
  have hany : ((List.range (socks5_m_count b').toNat).any
        fun i => decide (9 < b.getD (2 + i) 0 % 256)) =
      ((List.range (socks5_m_count b').toNat).any
        fun i => decide (9 < b'.getD (2 + i) 0 % 256)) := by
    apply any_congr_mem
    intro i hi
    rw [List.mem_range] at hi
    rw [getD_eq_of_take_eq h (by omega)]
  rw [hany]

/-- C8: every entry of the builtins table, and the regex probe, decides from
the bytes in [0, len) only: two buffers agreeing on their first len bytes
get the same verdict, so no probe reads past the end of the slice (length
gates make each probe return AGAIN before any byte beyond the slice would
be needed). -/
theorem probes_bounded_read :
    (∀ pr ∈ builtins, ∀ (d : ProtoData) (b b' : List Nat) (len : Nat),
        b.take len = b'.take len → pr.2 b len d = pr.2 b' len d) ∧
    (∀ (d : ProtoData) (b b' : List Nat) (len : Nat),
        b.take len = b'.take len → regex_probe b len d = regex_probe b' len d) := by
  constructor
  · intro pr hpr d b b' len h
    simp only [builtins, List.mem_cons, List.not_mem_nil, or_false] at hpr
    rcases hpr with rfl | rfl | rfl | rfl | rfl | rfl | rfl | rfl | rfl
    · exact ssh_frame h d
    · exact openvpn_frame h d
    · exact tinc_frame h d
    · exact xmpp_frame h d
    · exact http_frame h d
    · exact tls_frame h d
    · exact adb_frame h d
    · exact socks5_frame h d
    · rfl
  · intro d b b' len h
    rw [regex_probe, regex_probe, h]

/-- witness for `probes_bounded_read`: the ssh probe at len 4 ignores the
differing fifth byte. -/
theorem probes_bounded_read_witness :
    (("ssh", is_ssh_protocol) ∈ builtins) ∧
    (([83, 83, 72, 45, 1] : List Nat).take 4 = ([83, 83, 72, 45, 2] : List Nat).take 4) ∧
    is_ssh_protocol [83, 83, 72, 45, 1] 4 ProtoData.nodata =
      is_ssh_protocol [83, 83, 72, 45, 2] 4 ProtoData.nodata :=
  ⟨List.Mem.head _, by decide,
   probes_bounded_read.1 ("ssh", is_ssh_protocol) (List.Mem.head _) ProtoData.nodata
     [83, 83, 72, 45, 1] [83, 83, 72, 45, 2] 4 (by decide)⟩

/-- C9: when the initial read yields zero bytes or an error (n <= 0) before
any MATCH, `probe_client_protocol` selects the last configured protocol
entry and returns PROBE_MATCH instead of signalling an error. -/
theorem probe_client_error_fallback (protos : List ProtocolsItem) (n : Int)
    (buffer deferred : List Nat) (hn : n ≤ 0) (hne : protos ≠ []) :
    probe_client_protocol protos n buffer deferred =
      (PROBE.MATCH, protos.getLast?) := by
  rw [probe_client_protocol, if_neg (by omega : ¬(0 < n)),
    List.getLast?_eq_getElem? protos]

/-- witness for `probe_client_error_fallback`: a read returning 0 on the
[ssh, anyprot] configuration selects anyprot with MATCH. -/
theorem probe_client_error_fallback_witness :
    ((0 : Int) ≤ 0) ∧ ([egSsh, egAny] : List ProtocolsItem) ≠ [] ∧
      probe_client_protocol [egSsh, egAny] 0 [] [] =
        (PROBE.MATCH, [egSsh, egAny].getLast?) :=
  ⟨by decide, by simp,
   probe_client_error_fallback [egSsh, egAny] 0 [] [] (by decide) (by simp)⟩

/-- C10: `probe_buffer` and `timeout_protocol` need at least one configured
entry: with an empty protocol list the exhaustion fallback access
`protocols[protocols_len - 1]` and the timeout fallback access
`protocols[0]` are both out of bounds (modelled by the absent entry `none`),
while with a non-empty list every MATCH verdict of `probe_buffer` and every
`timeout_protocol` lookup carry an actual entry. -/
theorem protocols_nonempty_precondition :
    (∀ (buf : List Nat) (len : Nat),
        probe_buffer [] buf len = (PROBE.MATCH, none)) ∧
    (∀ s : String, timeout_protocol [] s = none) ∧
    (∀ (protos : List ProtocolsItem) (buf : List Nat) (len : Nat), protos ≠ [] →
        (probe_buffer protos buf len).1 = PROBE.MATCH →
          ((probe_buffer protos buf len).2).isSome = true) ∧
    (∀ (protos : List ProtocolsItem) (s : String), protos ≠ [] →
        (timeout_protocol protos s).isSome = true) := by
  refine ⟨?_, ?_, ?_, ?_⟩
  · intro buf len
    rfl
  · intro s
    rfl
  · intro protos buf len hne hm
    rw [probe_buffer, probe_buffer_loop_eq] at hm ⊢
    rcases hfind : (consideredList protos).find?
        (fun q => decide (entryOutcome buf len q = some PROBE.MATCH)) with _ | q
    · by_cases hcond : ((consideredList protos).any
          fun q => decide (entryOutcome buf len q = some PROBE.AGAIN)) = true
      · simp [hfind, hcond] at hm
      · have hlt : protos.length - 1 < protos.length := by
          have := List.length_pos.mpr hne
          omega
        simp [hfind, hcond, List.getElem?_eq_getElem hlt]
    · simp [hfind]
  · intro protos s hne
    rw [timeout_protocol]
    rcases hf : protos.find? (fun q => q.name == s) with _ | q
    · have h0 : 0 < protos.length := List.length_pos.mpr hne
      simp [hf, List.getElem?_eq_getElem h0]
    · simp [hf]

/-- witness for `protocols_nonempty_precondition`: the empty configuration
yields absent entries, the two-entry configuration yields present ones. -/
theorem protocols_nonempty_precondition_witness :
    probe_buffer [] sshBuf 4 = (PROBE.MATCH, none) ∧
    timeout_protocol [] "ssh" = none ∧
    ((probe_buffer [egSsh, egAny] sshBuf 4).2).isSome = true ∧
    (timeout_protocol [egSsh, egAny] "anyprot").isSome = true :=
  ⟨protocols_nonempty_precondition.1 sshBuf 4,
   protocols_nonempty_precondition.2.1 "ssh",
   protocols_nonempty_precondition.2.2.1 [egSsh, egAny] sshBuf 4 (by simp) rfl,
   protocols_nonempty_precondition.2.2.2 [egSsh, egAny] "anyprot" (by simp)⟩
